import Mathlib

/-!
Verification of the legacy-log formatter (src/legacy.go, package hatchet).

The Go source is shallowly embedded: BSON values become the inductive
type BsonValue, the recursive serializer toLegacyString and the
per-component token builders are translated function by function, and
Go panics (failed type assertions, out-of-range slice or index
expressions) are modelled by Option, with none marking an abort.
-/

/-- BSON values as they occur in the attribute lists handled by
legacy.go.  The variants mirror the cases of the Go type switch in
toLegacyString: nil, bool, the int family (int, int32, int64), string,
primitive.Binary (subtype byte plus payload bytes), bson.A, bson.D and
bson.E.  The remaining driver types (floats, ObjectID, Timestamp,
DateTime, Regex) are not exercised by any claim and are omitted from
the value universe. -/
inductive BsonValue where
  | vnull
  | vbool (b : Bool)
  | vint (n : Int)
  | vstr (s : String)
  | vbinary (subtype : Nat) (data : List Nat)
  | varr (elems : List BsonValue)
  | vdoc (entries : List (String × BsonValue))
  | ventry (key : String) (value : BsonValue)
deriving Repr

mutual

/-- Go fmt's default `%v` rendering of an attribute value, used wherever
legacy.go formats an attribute with `%v` (tokens such as `from %v`,
`#%v`, `on %v`).  A nil interface prints as `<nil>`, numbers print in
decimal, strings print verbatim, a struct prints as its brace-wrapped
fields and a slice as its bracket-wrapped elements. -/
def govFmt : BsonValue → String
  | .vnull => "<nil>"
  | .vbool b => if b then "true" else "false"
  | .vint n => toString n
  | .vstr s => s
  | .vbinary st data =>
      "\x7b" ++ toString st ++ " [" ++ " ".intercalate (data.map toString) ++ "]\x7d"
  | .varr elems => "[" ++ " ".intercalate (govFmtList elems) ++ "]"
  | .vdoc entries => "[" ++ " ".intercalate (govFmtEntries entries) ++ "]"
  | .ventry k v => "\x7b" ++ k ++ " " ++ govFmt v ++ "\x7d"

/-- Helper of govFmt: `%v` of each element of a bson.A slice. -/
def govFmtList : List BsonValue → List String
  | [] => []
  | v :: rest => govFmt v :: govFmtList rest

/-- Helper of govFmt: `%v` of each primitive.E of a bson.D slice. -/
def govFmtEntries : List (String × BsonValue) → List String
  | [] => []
  | (k, v) :: rest => ("\x7b" ++ k ++ " " ++ govFmt v ++ "\x7d") :: govFmtEntries rest

end

/-- Go fmt's `%v` of a possibly missing map entry: a missing key yields
the nil interface, which prints as `<nil>`. -/
def optFmt : Option BsonValue → String
  | none => "<nil>"
  | some v => govFmt v

/-- Go strings.Split(s, ":") on the character list of s: every colon is
a separator, empty fields are kept, and the result is never empty. -/
def splitOnColon : List Char → List (List Char)
  | [] => [[]]
  | c :: cs =>
    if c = ':' then [] :: splitOnColon cs
    else
      match splitOnColon cs with
      | [] => [[c]]
      | t :: ts => (c :: t) :: ts

/-- Lowercase hex digit, as produced by Go encoding/hex. -/
def hexChar (n : Nat) : Char := "0123456789abcdef".data.getD n '0'

/-- Go hex.EncodeToString: two lowercase hex digits per byte, high
nibble first. -/
def hexEncode : List Nat → List Char
  | [] => []
  | b :: rest => hexChar (b / 16) :: hexChar (b % 16) :: hexEncode rest

/-- Character table of Go encoding/base64 StdEncoding. -/
def base64Char (n : Nat) : Char :=
  "ABCDEFGHIJKLMNOPQRSTUVWXYZabcdefghijklmnopqrstuvwxyz0123456789+/".data.getD n '='

/-- Go base64.StdEncoding character stream: three input bytes become
four output characters, with `=` padding for a short final group. -/
def base64Chunks : List Nat → List Char
  | [] => []
  | [b0] => [base64Char (b0 / 4), base64Char (b0 % 4 * 16), '=', '=']
  | [b0, b1] =>
      [base64Char (b0 / 4), base64Char (b0 % 4 * 16 + b1 / 16), base64Char (b1 % 16 * 4), '=']
  | b0 :: b1 :: b2 :: rest =>
      base64Char (b0 / 4) :: base64Char (b0 % 4 * 16 + b1 / 16) ::
        base64Char (b1 % 16 * 4 + b2 / 64) :: base64Char (b2 % 64) :: base64Chunks rest

/-- Go base64.StdEncoding.EncodeToString. -/
def base64Encode (data : List Nat) : String := String.mk (base64Chunks data)

/-- Go strings.Index(k, ".") specialised to the single-character needle
used in toLegacyString.  Go returns a byte offset; the test made of it
is only `> 0`, and the byte offset of the first dot is positive exactly
when its character index is positive, so the character index is
faithful for that test.  Returns -1 when no dot occurs, as Go does. -/
def goDotIndex (k : String) : Int :=
  match k.data.findIdx? (fun c => c == '.') with
  | some n => (n : Int)
  | none => -1

/-- Rendering of a toLegacyString result with `%v`: the interface value
returned by the Go function either is already a string or is a
passed-through value that `%v` formats with its default form. -/
def fmtRes : BsonValue ⊕ String → String
  | .inl v => govFmt v
  | .inr s => s

mutual

/-- Stand-in for the driver call bson.MarshalExtJSON(v, false, false)
used for the `doc` attribute of NETWORK records.  The driver is an
external library whose source is not part of this repository; per the
spec the token is the document rendered as compact extended JSON, so a
compact JSON text is produced here.  No claim inspects this string. -/
def marshalExtJSON : BsonValue → String
  | .vnull => "null"
  | .vbool b => if b then "true" else "false"
  | .vint n => toString n
  | .vstr s => "\"" ++ s ++ "\""
  | .vbinary st data =>
      "\x7b\"$binary\":\x7b\"base64\":\"" ++ base64Encode data ++ "\",\"subType\":\""
        ++ toString st ++ "\"\x7d\x7d"
  | .varr elems => "[" ++ ",".intercalate (extJsonList elems) ++ "]"
  | .vdoc entries => "\x7b" ++ ",".intercalate (extJsonEntries entries) ++ "\x7d"
  | .ventry k v => "\x7b\"" ++ k ++ "\":" ++ marshalExtJSON v ++ "\x7d"

/-- Helper of marshalExtJSON for array elements. -/
def extJsonList : List BsonValue → List String
  | [] => []
  | v :: rest => marshalExtJSON v :: extJsonList rest

/-- Helper of marshalExtJSON for document entries. -/
def extJsonEntries : List (String × BsonValue) → List String
  | [] => []
  | (k, v) :: rest => ("\"" ++ k ++ "\":" ++ marshalExtJSON v) :: extJsonEntries rest

end

mutual

/-- The recursive serializer toLegacyString of legacy.go.  The Go
function returns interface\x7bText\x7d; here the result is inl for the
pass-through cases (`return o`) and inr for the cases that build a
string.  none models a panic: the only panics are the out-of-range
slices x[:8] .. x[20:] taken of the hex text of a subtype-4 binary,
which are all in range exactly when the hex text has at least 20
characters. -/
def toLegacyString : BsonValue → Option (BsonValue ⊕ String)
  | .vnull => some (.inl .vnull)
  | .vbool b => some (.inr (" " ++ govFmt (.vbool b)))
  | .varr elems =>
    match toLegacyArrElems elems with
    | none => none
    | some groups => some (.inr ("[" ++ ", ".intercalate groups ++ "]"))
  | .vdoc entries =>
    match toLegacyDocParts entries with
    | none => none
    | some parts => some (.inr (" \x7b " ++ ", ".intercalate parts ++ " \x7d"))
  | .ventry k v =>
    match toLegacyString v with
    | none => none
    | some r =>
      if 0 < goDotIndex k then
        some (.inr (" \x7b \"" ++ k ++ "\":" ++ fmtRes r ++ " \x7d "))
      else
        some (.inr (" \x7b " ++ k ++ ":" ++ fmtRes r ++ " \x7d "))
  | .vint n => some (.inl (.vint n))
  | .vbinary st data =>
    if st = 0 then
      some (.inr ("\x7b $binary:\x7b base64: \"" ++ base64Encode data ++ "\", subtype:0\x7d\x7d"))
    else if st = 4 then
      let x := hexEncode data
      if 20 ≤ x.length then
        some (.inr ("\x7b $uuid: \"" ++ String.mk (x.take 8) ++ "-"
          ++ String.mk ((x.drop 8).take 4) ++ "-" ++ String.mk ((x.drop 12).take 4) ++ "-"
          ++ String.mk ((x.drop 16).take 4) ++ "-" ++ String.mk (x.drop 20) ++ "\"\x7d"))
      else none
    else some (.inl (.vbinary st data))
  | .vstr s => some (.inr (" \"" ++ govFmt (.vstr s) ++ "\""))

/-- Loop body of the bson.D case: one `k:render(v)` part per entry, in
order, aborting as soon as a nested rendering panics. -/
def toLegacyDocParts : List (String × BsonValue) → Option (List String)
  | [] => some []
  | (k, v) :: rest =>
    match toLegacyString v with
    | none => none
    | some r =>
      match toLegacyDocParts rest with
      | none => none
      | some parts => some ((k ++ ":" ++ fmtRes r) :: parts)

/-- Outer loop of the bson.A case: an element that is itself a bson.D
contributes its entries wrapped individually and comma-joined; any
other element contributes its own rendering. -/
def toLegacyArrElems : List BsonValue → Option (List String)
  | [] => some []
  | .vdoc entries :: rest =>
    match toLegacyArrDocParts entries with
    | none => none
    | some parts =>
      match toLegacyArrElems rest with
      | none => none
      | some groups => some (", ".intercalate parts :: groups)
  | e :: rest =>
    match toLegacyString e with
    | none => none
    | some r =>
      match toLegacyArrElems rest with
      | none => none
      | some groups => some (fmtRes r :: groups)

/-- Inner loop of the bson.A case for a document element: each entry is
wrapped as an individual brace group. -/
def toLegacyArrDocParts : List (String × BsonValue) → Option (List String)
  | [] => some []
  | (k, v) :: rest =>
    match toLegacyString v with
    | none => none
    | some r =>
      match toLegacyArrDocParts rest with
      | none => none
      | some parts => some (("\x7b " ++ k ++ ":" ++ fmtRes r ++ " \x7d") :: parts)

end

/-- Modelled from the spec: the Remote side artifact (its Go struct is
declared outside src/legacy.go).  Per the spec it carries the host
string left of the colon, the port string right of it, the
Accepted/Ended lifecycle flags (1 or 0) and the open-connection count
Conns. -/
structure Remote where
  Value : String
  Port : String
  Accepted : Int
  Ended : Int
  Conns : Int
deriving Repr, DecidableEq

/-- Zero value of the Remote struct, as produced by the Go composite
literal Remote\x7b\x7d. -/
def remoteZero : Remote := ⟨"", "", 0, 0, 0⟩

/-- Modelled from the spec: the log record (its Go struct Logv2Info is
declared outside src/legacy.go).  Per the spec it carries the component
tag, the canonical message, the ordered attribute sequence, the output
Message (absent when no tokens were produced) and the optional Remote
artifact. -/
structure Logv2Info where
  Component : String
  Msg : String
  Attr : List (String × BsonValue)
  Message : Option String
  Remote : Option Remote
deriving Repr

/-- Modelled from the spec: the repository helper ToInt (declared
outside src/legacy.go) that parses the connectionCount attribute into
the Conns field; per the spec the count is the attribute's numeric
value when present and 0 otherwise. -/
def ToInt : BsonValue → Int
  | .vint n => n
  | _ => 0

/-- The driver method bson.D.Map(): a key-to-value map in which a
repeated key keeps its last value; lookup of an absent key yields the
nil interface, modelled as none. -/
def mapGet : List (String × BsonValue) → String → Option BsonValue
  | [], _ => none
  | (k, v) :: rest, key =>
    match mapGet rest key with
    | some w => some w
    | none => if k = key then some v else none

/-- Message-classifier tokens of AddLegacyString: the leading if-block
that maps the three recognized messages to their legacy short forms,
passes any other message through, and contributes nothing for
"Slow query". -/
def msgTokens (msg : String) : List String :=
  if msg ≠ "Slow query" then
    [if msg = "Connection ended" then "end connection"
     else if msg = "Connection accepted" then "connection accepted"
     else if msg = "Authentication succeeded" then "Successfully authenticated"
     else msg]
  else []

/-- Single token of the CONTROL branch, built from map lookups of pid,
port, architecture and host with `%v` formatting. -/
def controlToken (attrs : List (String × BsonValue)) : String :=
  "pid=" ++ optFmt (mapGet attrs "pid") ++ " port=" ++ optFmt (mapGet attrs "port")
    ++ " " ++ optFmt (mapGet attrs "architecture") ++ " host=" ++ optFmt (mapGet attrs "host")

/-- Loop of the ACCESS branch: one token per recognized key, in
attribute order; unrecognized keys contribute nothing. -/
def accessTokens : List (String × BsonValue) → List String
  | [] => []
  | (k, v) :: rest =>
    (if k = "authenticationDatabase" then ["on " ++ govFmt v]
     else if k = "principalName" then ["as principal " ++ govFmt v]
     else if k = "remote" then ["from client " ++ govFmt v]
     else if k = "durationMillis" then [govFmt v ++ "ms"]
     else []) ++ accessTokens rest

/-- Loop body of the NETWORK branch on one attribute, threading the
token list and the Remote struct under construction.  For the remote
key the Go code asserts the value to string (panic on any other type,
modelled as none), splits it on colons and indexes elements 0 and 1 of
the result (an index out of range panics, modelled as none). -/
def networkStep (msg : String) (st : List String × Remote) (attr : String × BsonValue) :
    Option (List String × Remote) :=
  let (arr, rm) := st
  let (k, v) := attr
  if k = "remote" then
    match v with
    | .vstr s =>
      let toks := (splitOnColon s.data).map String.mk
      match toks.get? 0, toks.get? 1 with
      | some t0, some t1 =>
        let rm' := { rm with Value := t0, Port := t1 }
        if msg = "Connection ended" then
          some (arr ++ [govFmt (.vstr s)], { rm' with Ended := 1 })
        else
          some (arr ++ ["from " ++ govFmt (.vstr s)], { rm' with Accepted := 1 })
      | _, _ => none
    | _ => none
  else if k = "client" then some (arr ++ [govFmt v ++ ":"], rm)
  else if k = "connectionId" ∧ msg ≠ "Connection ended" then
    some (arr ++ ["#" ++ govFmt v], rm)
  else if k = "connectionCount" then
    some (arr ++ ["(" ++ govFmt v ++ " connections now open)"], { rm with Conns := ToInt v })
  else if k = "doc" then some (arr ++ [marshalExtJSON v], rm)
  else some (arr, rm)

/-- Loop of the NETWORK branch over the attribute sequence. -/
def networkFold (msg : String) : List (String × BsonValue) → List String × Remote →
    Option (List String × Remote)
  | [], st => some st
  | attr :: rest, st =>
    match networkStep msg st attr with
    | none => none
    | some st' => networkFold msg rest st'

/-- Loop of the default component branch: type and ns values are
asserted to string (panic on any other type, modelled as none), a
durationMillis value gets an ms suffix, and every other key is rendered
through toLegacyString. -/
def defaultTokens : List (String × BsonValue) → Option (List String)
  | [] => some []
  | (k, v) :: rest =>
    if k = "type" ∨ k = "ns" then
      match v with
      | .vstr s =>
        match defaultTokens rest with
        | none => none
        | some toks => some (s :: toks)
      | _ => none
    else if k = "durationMillis" then
      match defaultTokens rest with
      | none => none
      | some toks => some ((govFmt v ++ "ms") :: toks)
    else
      match toLegacyString v with
      | none => none
      | some r =>
        match defaultTokens rest with
        | none => none
        | some toks => some ((k ++ ":" ++ fmtRes r) :: toks)

/-- Core of AddLegacyString as a function of the three fields it reads:
the classifier tokens followed by the component branch's tokens, plus
the Remote struct to attach when the NETWORK branch captured a
non-empty host.  none models a panic inside a branch. -/
def runLegacy (component msg : String) (attrs : List (String × BsonValue)) :
    Option (List String × Option Remote) :=
  if component = "CONTROL" ∧ (mapGet attrs "host").isSome then
    some (msgTokens msg ++ [controlToken attrs], none)
  else if component = "ACCESS" then
    some (msgTokens msg ++ accessTokens attrs, none)
  else if component = "NETWORK" then
    match networkFold msg attrs ([], remoteZero) with
    | none => none
    | some (toks, rm) => some (msgTokens msg ++ toks, if rm.Value ≠ "" then some rm else none)
  else
    match defaultTokens attrs with
    | none => none
    | some toks => some (msgTokens msg ++ toks, none)

/-- Assignment doc.Remote = &remote performed by the NETWORK branch
when it captured a non-empty host; a record outside that case keeps its
Remote field. -/
def attachRemote (doc : Logv2Info) : Option Remote → Logv2Info
  | some rm => { doc with Remote := some rm }
  | none => doc

/-- AddLegacyString of legacy.go.  The record comes back with Remote
attached when the NETWORK branch captured a host, and with Message set
to the space-join of the tokens unless no token was produced, in which
case the function returns early and Message keeps its previous value.
The Go error result (second component) is nil on every path: the `err`
variable is never assigned and the early return uses a literal nil.
none models a panic. -/
def AddLegacyString (doc : Logv2Info) : Option (Logv2Info × Option String) :=
  match runLegacy doc.Component doc.Msg doc.Attr with
  | none => none
  | some (arr, rmOpt) =>
    if arr = [] then some (attachRemote doc rmOpt, none)
    else some ({ attachRemote doc rmOpt with Message := some (" ".intercalate arr) }, none)

/-- Host portion of a remote attribute value: the text of a string
value left of its first colon (the whole text when no colon occurs);
none for a non-string value. -/
def hostOf : BsonValue → Option String
  | .vstr s => (splitOnColon s.data).head?.map String.mk
  | _ => none

/-- Host portion of the last remote-keyed attribute of a sequence, the
one whose split survives in the Remote struct after the NETWORK loop. -/
def lastRemoteHost : List (String × BsonValue) → Option String
  | [] => none
  | (k, v) :: rest =>
    match lastRemoteHost rest with
    | some h => some h
    | none => if k = "remote" then hostOf v else none

/-- Document rendering as the spec words it: each entry of the document
contributes `key:render(value)`, in order, the whole failing when the
rendering of some entry value fails. -/
def specDocParts (entries : List (String × BsonValue)) : Option (List String) :=
  entries.foldr
    (fun e acc =>
      (toLegacyString e.2).bind (fun r => acc.map (fun parts => (e.1 ++ ":" ++ fmtRes r) :: parts)))
    (some [])

/-- Go strings.Split never returns an empty slice. -/
theorem splitOnColon_ne_nil (l : List Char) : splitOnColon l ≠ [] := by
  induction l with
  | nil => simp [splitOnColon]
  | cons c cs ih =>
    simp only [splitOnColon]
    split
    · simp
    · split
      · simp
      · simp

/-- Length of the split: one more field than there are colons. -/
theorem splitOnColon_length (l : List Char) :
    (splitOnColon l).length = l.count ':' + 1 := by
  induction l with
  | nil => simp [splitOnColon]
  | cons c cs ih =>
    simp only [splitOnColon]
    split
    · rename_i hc
      subst hc
      simp [List.count_cons, ih]
    · rename_i hc
      rcases hs : splitOnColon cs with _ | ⟨t, ts⟩
      · exact absurd hs (splitOnColon_ne_nil cs)
      · rw [hs] at ih
        simp only [List.length_cons] at ih ⊢
        rw [List.count_cons]
        simp [hc] at *
        omega

/-- Splitting a text that starts with a colon-free prefix followed by
a colon yields that prefix as the first field. -/
theorem splitOnColon_append (a r : List Char) (ha : ':' ∉ a) :
    splitOnColon (a ++ ':' :: r) = a :: splitOnColon r := by
  induction a with
  | nil => simp [splitOnColon]
  | cons c a' ih =>
    have hc : c ≠ ':' := fun h => ha (h ▸ List.mem_cons_self c a')
    have ha' : ':' ∉ a' := fun h => ha (List.mem_cons_of_mem c h)
    simp only [List.cons_append, splitOnColon, if_neg hc]
    rw [show a'.append (':' :: r) = a' ++ ':' :: r from rfl, ih ha']

/-- The source's bson.D loop builds exactly the parts the spec
describes: one `key:render(value)` per entry, in order. -/
theorem toLegacyDocParts_eq_spec (entries : List (String × BsonValue)) :
    toLegacyDocParts entries = specDocParts entries := by
  induction entries with
  | nil => simp [toLegacyDocParts, specDocParts]
  | cons e rest ih =>
    obtain ⟨k, v⟩ := e
    simp only [toLegacyDocParts, specDocParts, List.foldr_cons] at ih ⊢
    rw [← ih]
    cases hv : toLegacyString v with
    | none => simp
    | some r =>
      cases hr : toLegacyDocParts rest with
      | none => simp
      | some parts => simp

/-- The `strings.Index(key, ".") > 0` test of the bson.E case holds
exactly when the key has a dot somewhere after its first character. -/
theorem goDotIndex_pos_iff (k : String) :
    0 < goDotIndex k ↔ (k.data.head? ≠ some '.' ∧ '.' ∈ k.data.drop 1) := by
  unfold goDotIndex
  cases hd : k.data with
  | nil => simp [List.findIdx?]
  | cons c cs =>
    rw [List.findIdx?_cons]
    by_cases hc : c = '.'
    · subst hc
      simp
    · have hcb : (c == '.') = false := by simpa using hc
      rw [hcb]
      simp only [if_false, Bool.false_eq_true, reduceIte]
      rw [List.findIdx?_succ]
      cases hf : cs.findIdx? (fun x => x == '.') with
      | none =>
        have hnone : '.' ∉ cs := by
          intro hmem
          have h1 := List.findIdx?_eq_none_iff.mp hf '.' hmem
          simp at h1
        simp [hc, hnone]
      | some m =>
        have hmem : '.' ∈ cs := by
          have h1 : (cs.findIdx? (fun x => x == '.')).isSome = cs.any (fun x => x == '.') :=
            List.findIdx?_isSome
          rw [hf] at h1
          have h2 : cs.any (fun x => x == '.') = true := by simpa using h1.symm
          obtain ⟨x, hx, hxe⟩ := List.any_eq_true.mp h2
          have : x = '.' := by simpa using hxe
          exact this ▸ hx
        simp [hc, hmem]

/-- Every non-remote key of the NETWORK loop leaves the captured host
unchanged. -/
theorem networkStep_value_of_ne_remote (msg : String) (arr : List String) (rm : Remote)
    (k : String) (v : BsonValue) (st' : List String × Remote)
    (hk : k ≠ "remote") (h : networkStep msg (arr, rm) (k, v) = some st') :
    st'.2.Value = rm.Value := by
  simp only [networkStep, if_neg hk] at h
  split at h
  · cases h; rfl
  · split at h
    · cases h; rfl
    · split at h
      · cases h; rfl
      · split at h
        · cases h; rfl
        · cases h; rfl

/-- A successful step on a remote attribute stores the host portion of
its value. -/
theorem networkStep_remote_value (msg : String) (arr : List String) (rm : Remote)
    (v : BsonValue) (st' : List String × Remote)
    (h : networkStep msg (arr, rm) ("remote", v) = some st') :
    hostOf v = some st'.2.Value := by
  match v with
  | .vstr s =>
    rcases hsp : splitOnColon s.data with _ | ⟨t0, ts⟩
    · exact absurd hsp (splitOnColon_ne_nil _)
    · rcases ts with _ | ⟨t1, ts'⟩
      · simp [networkStep, hsp, List.get?] at h
      · simp only [networkStep, hsp, List.map_cons, List.get?, if_pos rfl, reduceIte] at h
        have hval : st'.2.Value = String.mk t0 := by
          by_cases hmsg : msg = "Connection ended"
          · rw [if_pos hmsg] at h
            cases h
            rfl
          · rw [if_neg hmsg] at h
            cases h
            rfl
        simp [hostOf, hsp, hval]
  | .vnull => simp [networkStep] at h
  | .vbool b => simp [networkStep] at h
  | .vint n => simp [networkStep] at h
  | .vbinary st data => simp [networkStep] at h
  | .varr es => simp [networkStep] at h
  | .vdoc es => simp [networkStep] at h
  | .ventry a b => simp [networkStep] at h

/-- After the NETWORK loop the captured host is the host portion of the
last remote attribute, or the incoming value when there is none. -/
theorem networkFold_value (msg : String) (attrs : List (String × BsonValue)) :
    ∀ (st : List String × Remote) (toks : List String) (rm' : Remote),
    networkFold msg attrs st = some (toks, rm') →
    rm'.Value = (lastRemoteHost attrs).getD st.2.Value := by
  induction attrs with
  | nil =>
    intro st toks rm' h
    obtain ⟨arr, rm⟩ := st
    simp only [networkFold, Option.some.injEq, Prod.mk.injEq] at h
    simp [lastRemoteHost, ← h.2]
  | cons attr rest ih =>
    intro st toks rm' h
    obtain ⟨k, v⟩ := attr
    simp only [networkFold] at h
    cases hstep : networkStep msg st (k, v) with
    | none => rw [hstep] at h; simp at h
    | some st' =>
      rw [hstep] at h
      simp only at h
      have hrest := ih st' toks rm' h
      simp only [lastRemoteHost]
      cases hl : lastRemoteHost rest with
      | some hh => rw [hl] at hrest; simpa using hrest
      | none =>
        rw [hl] at hrest
        simp only [Option.getD_some, Option.getD_none] at hrest ⊢
        by_cases hk : k = "remote"
        · subst hk
          obtain ⟨arr, rm⟩ := st
          have := networkStep_remote_value msg arr rm v st' hstep
          simp [this, hrest]
        · obtain ⟨arr, rm⟩ := st
          have := networkStep_value_of_ne_remote msg arr rm k v st' hk hstep
          simp [if_neg hk, hrest, this]

/-- The NETWORK loop body cannot panic except on a remote attribute
whose value is not a string containing a colon. -/
theorem networkStep_some (msg : String) (st : List String × Remote)
    (k : String) (v : BsonValue)
    (hrem : k = "remote" → ∃ s, v = .vstr s ∧ 1 ≤ s.data.count ':') :
    ∃ st', networkStep msg st (k, v) = some st' := by
  obtain ⟨arr, rm⟩ := st
  by_cases hk : k = "remote"
  · obtain ⟨s, hv, hcount⟩ := hrem hk
    subst hv
    subst hk
    rcases hsp : splitOnColon s.data with _ | ⟨t0, ts⟩
    · exact absurd hsp (splitOnColon_ne_nil _)
    · rcases ts with _ | ⟨t1, ts'⟩
      · have hlen := splitOnColon_length s.data
        rw [hsp] at hlen
        simp at hlen
        omega
      · simp only [networkStep, hsp, List.map_cons, List.get?, if_pos rfl, reduceIte]
        by_cases hmsg : msg = "Connection ended"
        · rw [if_pos hmsg]
          exact ⟨_, rfl⟩
        · rw [if_neg hmsg]
          exact ⟨_, rfl⟩
  · simp only [networkStep, if_neg hk]
    split
    · exact ⟨_, rfl⟩
    · split
      · exact ⟨_, rfl⟩
      · split
        · exact ⟨_, rfl⟩
        · split
          · exact ⟨_, rfl⟩
          · exact ⟨_, rfl⟩

/-- The NETWORK loop runs to completion when every remote attribute
holds a string with at least one colon. -/
theorem networkFold_some (msg : String) (attrs : List (String × BsonValue)) :
    ∀ (st : List String × Remote),
    (∀ v, ("remote", v) ∈ attrs → ∃ s, v = .vstr s ∧ 1 ≤ s.data.count ':') →
    ∃ st', networkFold msg attrs st = some st' := by
  induction attrs with
  | nil => intro st _; exact ⟨st, rfl⟩
  | cons attr rest ih =>
    intro st hrem
    obtain ⟨k, v⟩ := attr
    obtain ⟨st', hst'⟩ := networkStep_some msg st k v (fun hk => hrem v (by rw [← hk]; exact List.mem_cons_self _ _))
    obtain ⟨st'', hst''⟩ := ih st' (fun w hw => hrem w (List.mem_cons_of_mem _ hw))
    exact ⟨st'', by simp only [networkFold, hst', hst'']⟩

theorem attachRemote_Component (doc : Logv2Info) (rmOpt : Option Remote) :
    (attachRemote doc rmOpt).Component = doc.Component := by cases rmOpt <;> rfl

theorem attachRemote_Msg (doc : Logv2Info) (rmOpt : Option Remote) :
    (attachRemote doc rmOpt).Msg = doc.Msg := by cases rmOpt <;> rfl

theorem attachRemote_Attr (doc : Logv2Info) (rmOpt : Option Remote) :
    (attachRemote doc rmOpt).Attr = doc.Attr := by cases rmOpt <;> rfl

theorem attachRemote_Message (doc : Logv2Info) (rmOpt : Option Remote) :
    (attachRemote doc rmOpt).Message = doc.Message := by cases rmOpt <;> rfl

/-- C2, counterexample: an ACCESS record with a remote attribute whose host
portion is non-empty still gets no Remote artifact, refuting the claim read
over every record. -/
theorem c2_remote_attach_counterexample :
    AddLegacyString ⟨"ACCESS", "x", [("remote", .vstr "a:1")], none, none⟩ =
      some (⟨"ACCESS", "x", [("remote", .vstr "a:1")], some "x from client a:1", none⟩,
        none) ∧
    lastRemoteHost [("remote", BsonValue.vstr "a:1")] = some "a" ∧ ("a" : String) ≠ "" :=
  ⟨rfl, rfl, by decide⟩

/-- C2, amended: for a record with no preexisting Remote whose processing
completes, the Remote artifact is attached exactly when the component is
NETWORK and the last remote-keyed attribute has a non-empty host portion. -/
theorem c2_remote_attach_iff (rec r : Logv2Info) (e : Option String)
    (h0 : rec.Remote = none) (h : AddLegacyString rec = some (r, e)) :
    r.Remote.isSome ↔
      (rec.Component = "NETWORK" ∧
        ∃ hst, lastRemoteHost rec.Attr = some hst ∧ hst ≠ "") := by
  simp only [AddLegacyString] at h
  cases hrl : runLegacy rec.Component rec.Msg rec.Attr with
  | none => rw [hrl] at h; exact absurd h (by simp)
  | some pr =>
    obtain ⟨arr, rmOpt⟩ := pr
    rw [hrl] at h
    simp only [] at h
    have hRem : r.Remote = (attachRemote rec rmOpt).Remote := by
      by_cases harr : arr = []
      · rw [if_pos harr] at h
        simp only [Option.some.injEq, Prod.mk.injEq] at h
        rw [← h.1]
      · rw [if_neg harr] at h
        simp only [Option.some.injEq, Prod.mk.injEq] at h
        rw [← h.1]
    unfold runLegacy at hrl
    by_cases hcN : rec.Component = "NETWORK"
    · rw [hcN] at hrl
      rw [if_neg (by simp), if_neg (by simp), if_pos rfl] at hrl
      cases hnf : networkFold rec.Msg rec.Attr ([], remoteZero) with
      | none => rw [hnf] at hrl; exact absurd hrl (by simp)
      | some st =>
        obtain ⟨toks, rm⟩ := st
        rw [hnf] at hrl
        simp only [Option.some.injEq, Prod.mk.injEq] at hrl
        obtain ⟨harr', hrm'⟩ := hrl
        have hval := networkFold_value rec.Msg rec.Attr ([], remoteZero) toks rm hnf
        rw [hRem, ← hrm']
        by_cases hv : rm.Value ≠ ""
        · rw [if_pos hv]
          simp only [attachRemote, Option.isSome_some, true_iff]
          refine ⟨hcN, ?_⟩
          cases hl : lastRemoteHost rec.Attr with
          | none =>
            rw [hl] at hval
            simp only [Option.getD_none] at hval
            exact absurd hval hv
          | some hst =>
            rw [hl] at hval
            simp only [Option.getD_some] at hval
            exact ⟨hst, rfl, hval ▸ hv⟩
        · rw [if_neg hv]
          push_neg at hv
          simp only [attachRemote, h0, Option.isSome_none, Bool.false_eq_true, false_iff]
          rintro ⟨-, hst, hl, hne⟩
          rw [hl] at hval
          simp only [Option.getD_some] at hval
          exact hne (by rw [← hval, hv])
    · have hnone : rmOpt = none := by
        by_cases hc1 : rec.Component = "CONTROL" ∧ (mapGet rec.Attr "host").isSome
        · rw [if_pos hc1] at hrl
          simp only [Option.some.injEq, Prod.mk.injEq] at hrl
          exact hrl.2.symm
        · rw [if_neg hc1] at hrl
          by_cases hc2 : rec.Component = "ACCESS"
          · rw [if_pos hc2] at hrl
            simp only [Option.some.injEq, Prod.mk.injEq] at hrl
            exact hrl.2.symm
          · rw [if_neg hc2, if_neg hcN] at hrl
            cases hdt : defaultTokens rec.Attr with
            | none => rw [hdt] at hrl; exact absurd hrl (by simp)
            | some toks =>
              rw [hdt] at hrl
              simp only [] at hrl
              simp only [Option.some.injEq, Prod.mk.injEq] at hrl
              exact hrl.2.symm
      rw [hRem, hnone]
      simp only [attachRemote, h0, Option.isSome_none, Bool.false_eq_true, false_iff]
      rintro ⟨h3, -⟩
      exact hcN h3

/-- C2 witness for the amended statement: a NETWORK record whose single
remote attribute has host a attaches the artifact. -/
theorem c2_remote_attach_iff_witness :
    (⟨"NETWORK", "m", [("remote", .vstr "a:1")], some "m from a:1",
        some ⟨"a", "1", 1, 0, 0⟩⟩ : Logv2Info).Remote.isSome ↔
      ((⟨"NETWORK", "m", [("remote", .vstr "a:1")], none, none⟩ : Logv2Info).Component =
          "NETWORK" ∧
        ∃ hst, lastRemoteHost [("remote", BsonValue.vstr "a:1")] = some hst ∧ hst ≠ "") :=
  c2_remote_attach_iff ⟨"NETWORK", "m", [("remote", .vstr "a:1")], none, none⟩
    ⟨"NETWORK", "m", [("remote", .vstr "a:1")], some "m from a:1",
      some ⟨"a", "1", 1, 0, 0⟩⟩ none rfl rfl

/-- C8: processing reads only Component, Msg and Attr — two successful runs on
records agreeing there either both leave a field alone or write the same value
to it — and it never alters Component, Msg or Attr. -/
theorem c8_frame_and_purity (rec1 rec2 r1 r2 : Logv2Info) (e1 e2 : Option String)
    (hc : rec1.Component = rec2.Component) (hm : rec1.Msg = rec2.Msg)
    (ha : rec1.Attr = rec2.Attr)
    (h1 : AddLegacyString rec1 = some (r1, e1)) (h2 : AddLegacyString rec2 = some (r2, e2)) :
    (r1.Component = rec1.Component ∧ r1.Msg = rec1.Msg ∧ r1.Attr = rec1.Attr) ∧
    (r2.Component = rec2.Component ∧ r2.Msg = rec2.Msg ∧ r2.Attr = rec2.Attr) ∧
    ((r1.Message = rec1.Message ∧ r2.Message = rec2.Message) ∨ r1.Message = r2.Message) ∧
    ((r1.Remote = rec1.Remote ∧ r2.Remote = rec2.Remote) ∨ r1.Remote = r2.Remote) := by
  simp only [AddLegacyString] at h1 h2
  rw [← hc, ← hm, ← ha] at h2
  cases hrl : runLegacy rec1.Component rec1.Msg rec1.Attr with
  | none => rw [hrl] at h1; exact absurd h1 (by simp)
  | some pr =>
    obtain ⟨arr, rmOpt⟩ := pr
    rw [hrl] at h1 h2
    simp only [] at h1 h2
    by_cases harr : arr = []
    · rw [if_pos harr] at h1 h2
      simp only [Option.some.injEq, Prod.mk.injEq] at h1 h2
      rw [← h1.1, ← h2.1]
      refine ⟨⟨attachRemote_Component _ _, attachRemote_Msg _ _, attachRemote_Attr _ _⟩,
        ⟨attachRemote_Component _ _, attachRemote_Msg _ _, attachRemote_Attr _ _⟩,
        Or.inl ⟨attachRemote_Message _ _, attachRemote_Message _ _⟩, ?_⟩
      cases rmOpt with
      | some rm => exact Or.inr rfl
      | none => exact Or.inl ⟨rfl, rfl⟩
    · rw [if_neg harr] at h1 h2
      simp only [Option.some.injEq, Prod.mk.injEq] at h1 h2
      rw [← h1.1, ← h2.1]
      refine ⟨⟨attachRemote_Component _ _, attachRemote_Msg _ _, attachRemote_Attr _ _⟩,
        ⟨attachRemote_Component _ _, attachRemote_Msg _ _, attachRemote_Attr _ _⟩,
        Or.inr rfl, ?_⟩
      cases rmOpt with
      | some rm => exact Or.inr rfl
      | none => exact Or.inl ⟨rfl, rfl⟩

/-- C8 witness: the frame property evaluated at a pair of identical
default-component records. -/
theorem c8_frame_and_purity_witness :
    ((⟨"X", "m", [], some "m", none⟩ : Logv2Info).Component =
        (⟨"X", "m", [], none, none⟩ : Logv2Info).Component ∧
      (⟨"X", "m", [], some "m", none⟩ : Logv2Info).Msg =
        (⟨"X", "m", [], none, none⟩ : Logv2Info).Msg ∧
      (⟨"X", "m", [], some "m", none⟩ : Logv2Info).Attr =
        (⟨"X", "m", [], none, none⟩ : Logv2Info).Attr) ∧
    ((⟨"X", "m", [], some "m", none⟩ : Logv2Info).Component =
        (⟨"X", "m", [], none, none⟩ : Logv2Info).Component ∧
      (⟨"X", "m", [], some "m", none⟩ : Logv2Info).Msg =
        (⟨"X", "m", [], none, none⟩ : Logv2Info).Msg ∧
      (⟨"X", "m", [], some "m", none⟩ : Logv2Info).Attr =
        (⟨"X", "m", [], none, none⟩ : Logv2Info).Attr) ∧
    (((⟨"X", "m", [], some "m", none⟩ : Logv2Info).Message =
          (⟨"X", "m", [], none, none⟩ : Logv2Info).Message ∧
        (⟨"X", "m", [], some "m", none⟩ : Logv2Info).Message =
          (⟨"X", "m", [], none, none⟩ : Logv2Info).Message) ∨
      (⟨"X", "m", [], some "m", none⟩ : Logv2Info).Message =
        (⟨"X", "m", [], some "m", none⟩ : Logv2Info).Message) ∧
    (((⟨"X", "m", [], some "m", none⟩ : Logv2Info).Remote =
          (⟨"X", "m", [], none, none⟩ : Logv2Info).Remote ∧
        (⟨"X", "m", [], some "m", none⟩ : Logv2Info).Remote =
          (⟨"X", "m", [], none, none⟩ : Logv2Info).Remote) ∨
      (⟨"X", "m", [], some "m", none⟩ : Logv2Info).Remote =
        (⟨"X", "m", [], some "m", none⟩ : Logv2Info).Remote) :=
  c8_frame_and_purity ⟨"X", "m", [], none, none⟩ ⟨"X", "m", [], none, none⟩
    ⟨"X", "m", [], some "m", none⟩ ⟨"X", "m", [], some "m", none⟩ none none
    rfl rfl rfl rfl rfl

/-- C1, counterexample: the document with the single entry a.b : 1 renders
with its dotted key unquoted, refuting the claim that any document entry
whose key contains a dot has the key rendered in double quotes. -/
theorem c1_doc_key_quoting_counterexample :
    toLegacyString (.vdoc [("a.b", .vint 1)]) = some (.inr " \x7b a.b:1 \x7d") ∧
    (" \x7b a.b:1 \x7d" : String) ≠ " \x7b \"a.b\":1 \x7d" :=
  ⟨rfl, by decide⟩

/-- C1, amended: a document renders as the space-padded brace group of its
comma-joined `key:render(value)` parts with keys never quoted; the quoting of
dotted keys applies only to a standalone entry (bson.E) value, and only when
the dot sits after the first character. -/
theorem c1_document_rendering :
    (∀ entries : List (String × BsonValue),
      toLegacyString (.vdoc entries) =
        (specDocParts entries).map
          (fun parts => .inr (" \x7b " ++ ", ".intercalate parts ++ " \x7d"))) ∧
    (∀ (k : String) (v : BsonValue) (r : BsonValue ⊕ String),
      toLegacyString v = some r →
      toLegacyString (.ventry k v) =
        some (.inr
          (if k.data.head? ≠ some '.' ∧ '.' ∈ k.data.drop 1 then
            " \x7b \"" ++ k ++ "\":" ++ fmtRes r ++ " \x7d "
          else " \x7b " ++ k ++ ":" ++ fmtRes r ++ " \x7d "))) := by
  constructor
  · intro entries
    simp only [toLegacyString]
    rw [toLegacyDocParts_eq_spec]
    cases specDocParts entries <;> simp
  · intro k v r hr
    simp only [toLegacyString, hr]
    by_cases hdot : 0 < goDotIndex k
    · rw [if_pos hdot, if_pos ((goDotIndex_pos_iff k).mp hdot)]
    · rw [if_neg hdot, if_neg (fun hc => hdot ((goDotIndex_pos_iff k).mpr hc))]

/-- C1 witness: the amended rendering evaluated at a one-entry document and
at a standalone entry with dotted key. -/
theorem c1_document_rendering_witness :
    toLegacyString (.vdoc [("x", .vint 2)]) =
      (specDocParts [("x", .vint 2)]).map
        (fun parts => .inr (" \x7b " ++ ", ".intercalate parts ++ " \x7d")) ∧
    toLegacyString (.ventry "a.b" (.vint 1)) =
      some (.inr
        (if ("a.b" : String).data.head? ≠ some '.' ∧ '.' ∈ ("a.b" : String).data.drop 1 then
          " \x7b \"" ++ "a.b" ++ "\":" ++ fmtRes (.inl (.vint 1)) ++ " \x7d "
        else " \x7b " ++ "a.b" ++ ":" ++ fmtRes (.inl (.vint 1)) ++ " \x7d ")) :=
  ⟨c1_document_rendering.1 [("x", .vint 2)],
   c1_document_rendering.2 "a.b" (.vint 1) (.inl (.vint 1)) rfl⟩

/-- C3, counterexample: on the Connection accepted scenario the message also
carries the classifier token, so it is not exactly the claimed text. -/
theorem c3_accepted_scenario_counterexample :
    AddLegacyString ⟨"NETWORK", "Connection accepted",
        [("remote", .vstr "127.0.0.1:54321"), ("connectionId", .vint 7)], none, none⟩ =
      some (⟨"NETWORK", "Connection accepted",
        [("remote", .vstr "127.0.0.1:54321"), ("connectionId", .vint 7)],
        some "connection accepted from 127.0.0.1:54321 #7",
        some ⟨"127.0.0.1", "54321", 1, 0, 0⟩⟩, none) ∧
    ("connection accepted from 127.0.0.1:54321 #7" : String) ≠ "from 127.0.0.1:54321 #7" :=
  ⟨rfl, by decide⟩

/-- C3, amended: the scenario record gets Message
"connection accepted from 127.0.0.1:54321 #7" (classifier token included)
and the Remote artifact with host 127.0.0.1, port 54321 and Accepted 1. -/
theorem c3_accepted_scenario :
    AddLegacyString ⟨"NETWORK", "Connection accepted",
        [("remote", .vstr "127.0.0.1:54321"), ("connectionId", .vint 7)], none, none⟩ =
      some (⟨"NETWORK", "Connection accepted",
        [("remote", .vstr "127.0.0.1:54321"), ("connectionId", .vint 7)],
        some "connection accepted from 127.0.0.1:54321 #7",
        some ⟨"127.0.0.1", "54321", 1, 0, 0⟩⟩, none) := rfl

/-- C5: the ACCESS authentication scenario produces exactly the claimed
message. -/
theorem c5_access_auth_scenario :
    AddLegacyString ⟨"ACCESS", "Authentication succeeded",
        [("authenticationDatabase", .vstr "admin"), ("principalName", .vstr "alice")],
        none, none⟩ =
      some (⟨"ACCESS", "Authentication succeeded",
        [("authenticationDatabase", .vstr "admin"), ("principalName", .vstr "alice")],
        some "Successfully authenticated on admin as principal alice", none⟩, none) := rfl

/-- C10: a subtype-4 binary with a nine-byte payload makes the 8-4-4-4-12
hex slicing go out of bounds, so its rendering aborts. -/
theorem c10_uuid_short_payload :
    ([0, 0, 0, 0, 0, 0, 0, 0, 0] : List Nat).length < 10 ∧
    toLegacyString (.vbinary 4 [0, 0, 0, 0, 0, 0, 0, 0, 0]) = none :=
  ⟨by decide, rfl⟩

/-- C4: under Msg "Connection ended" a remote attribute contributes its value
verbatim (no "from " prefix) and sets Ended to 1, a connectionId attribute
contributes no token, and the Connection ended scenario yields exactly the
claimed message with Ended 1 and Conns 3. -/
theorem c4_connection_ended_behavior :
    (∀ (arr : List String) (rm : Remote) (s : String) (t0 t1 : List Char)
        (rest : List (List Char)),
      splitOnColon s.data = t0 :: t1 :: rest →
      networkStep "Connection ended" (arr, rm) ("remote", .vstr s) =
        some (arr ++ [s],
          { rm with Value := String.mk t0, Port := String.mk t1, Ended := 1 })) ∧
    (∀ (arr : List String) (rm : Remote) (v : BsonValue),
      networkStep "Connection ended" (arr, rm) ("connectionId", v) = some (arr, rm)) ∧
    AddLegacyString ⟨"NETWORK", "Connection ended",
        [("remote", .vstr "127.0.0.1:54321"), ("connectionCount", .vint 3)], none, none⟩ =
      some (⟨"NETWORK", "Connection ended",
        [("remote", .vstr "127.0.0.1:54321"), ("connectionCount", .vint 3)],
        some "end connection 127.0.0.1:54321 (3 connections now open)",
        some ⟨"127.0.0.1", "54321", 0, 1, 3⟩⟩, none) := by
  refine ⟨?_, ?_, rfl⟩
  · intro arr rm s t0 t1 rest hsp
    simp only [networkStep, govFmt, hsp, List.map_cons, List.get?, if_pos rfl, reduceIte]
  · intro arr rm v
    simp [networkStep]

/-- C4 witness: the two general parts applied at the value "a:b" and at a
connectionId attribute. -/
theorem c4_connection_ended_witness :
    networkStep "Connection ended" ([], remoteZero) ("remote", .vstr "a:b") =
      some (([] : List String) ++ ["a:b"],
        { remoteZero with Value := String.mk ['a'], Port := String.mk ['b'], Ended := 1 }) ∧
    networkStep "Connection ended" ([], remoteZero) ("connectionId", .vint 7) =
      some ([], remoteZero) :=
  ⟨c4_connection_ended_behavior.1 [] remoteZero "a:b" ['a'] ['b'] [] rfl,
   c4_connection_ended_behavior.2.1 [] remoteZero (.vint 7)⟩

/-- C6: the classifier contributes no token for Slow query (it never looks at
the component), and whenever the whole token list is empty the function
returns with the record's Message unchanged rather than set to "". -/
theorem c6_slow_query_empty_noop :
    msgTokens "Slow query" = [] ∧
    (∀ (rec : Logv2Info) (rmOpt : Option Remote),
      runLegacy rec.Component rec.Msg rec.Attr = some ([], rmOpt) →
      ∃ r e, AddLegacyString rec = some (r, e) ∧ r.Message = rec.Message) := by
  constructor
  · rfl
  · intro rec rmOpt h
    refine ⟨attachRemote rec rmOpt, none, ?_, ?_⟩
    · simp [AddLegacyString, h]
    · cases rmOpt <;> rfl

/-- C6 witness: an ACCESS record with Msg Slow query and no attributes
produces no token and keeps Message unset. -/
theorem c6_slow_query_empty_noop_witness :
    msgTokens "Slow query" = [] ∧
    ∃ r e, AddLegacyString ⟨"ACCESS", "Slow query", [], none, none⟩ = some (r, e) ∧
      r.Message = (⟨"ACCESS", "Slow query", [], none, none⟩ : Logv2Info).Message :=
  ⟨c6_slow_query_empty_noop.1,
   c6_slow_query_empty_noop.2 ⟨"ACCESS", "Slow query", [], none, none⟩ none rfl⟩

/-- C7: a NETWORK record whose remote attributes are strings with exactly one
colon is processed without panic, and the error returned to the caller is
nil. -/
theorem c7_no_hard_failure (rec : Logv2Info)
    (hc : rec.Component = "NETWORK")
    (hrem : ∀ v, ("remote", v) ∈ rec.Attr → ∃ s, v = .vstr s ∧ s.data.count ':' = 1) :
    ∃ r, AddLegacyString rec = some (r, none) := by
  obtain ⟨st', hst'⟩ := networkFold_some rec.Msg rec.Attr ([], remoteZero)
    (fun v hv => by
      obtain ⟨s, hs, h1⟩ := hrem v hv
      exact ⟨s, hs, by omega⟩)
  obtain ⟨toks, rm⟩ := st'
  have hrl : runLegacy rec.Component rec.Msg rec.Attr =
      some (msgTokens rec.Msg ++ toks, if rm.Value ≠ "" then some rm else none) := by
    unfold runLegacy
    rw [hc, if_neg (by simp), if_neg (by simp), if_pos rfl, hst']
  simp only [AddLegacyString, hrl]
  split
  · exact ⟨_, rfl⟩
  · exact ⟨_, rfl⟩

/-- C7 witness: applied to a concrete NETWORK record with a single
well-formed remote attribute. -/
theorem c7_no_hard_failure_witness :
    ∃ r, AddLegacyString ⟨"NETWORK", "m", [("remote", .vstr "a:1")], none, none⟩ =
      some (r, none) :=
  c7_no_hard_failure ⟨"NETWORK", "m", [("remote", .vstr "a:1")], none, none⟩ rfl
    (fun v hv => by
      simp only [List.mem_singleton, Prod.mk.injEq] at hv
      exact ⟨"a:1", hv.2, by decide⟩)

/-- C9: a remote value with two or more colons is truncated: the host becomes
the text before the first colon and the port the text between the first and
second colon, whatever follows being discarded. -/
theorem c9_multi_colon_truncation (a b c msg : String) (arr : List String) (rm : Remote)
    (ha : ':' ∉ a.data) (hb : ':' ∉ b.data) :
    ∃ arr' rm',
      networkStep msg (arr, rm) ("remote", .vstr (a ++ ":" ++ b ++ ":" ++ c)) =
        some (arr', rm') ∧ rm'.Value = a ∧ rm'.Port = b := by
  have hdata : (a ++ ":" ++ b ++ ":" ++ c).data =
      a.data ++ ':' :: (b.data ++ ':' :: c.data) := by
    simp [String.data_append]
  have hsp : splitOnColon (a ++ ":" ++ b ++ ":" ++ c).data =
      a.data :: b.data :: splitOnColon c.data := by
    rw [hdata, splitOnColon_append _ _ ha, splitOnColon_append _ _ hb]
  simp only [networkStep, hsp, List.map_cons, List.get?, if_pos rfl, reduceIte]
  by_cases hmsg : msg = "Connection ended"
  · rw [if_pos hmsg]
    exact ⟨_, _, rfl, rfl, rfl⟩
  · rw [if_neg hmsg]
    exact ⟨_, _, rfl, rfl, rfl⟩

/-- C9 witness: truncation at a value with three colons, shaped like an
address carrying extra segments. -/
theorem c9_multi_colon_truncation_witness :
    ∃ arr' rm',
      networkStep "Connection accepted" ([], remoteZero)
          ("remote", .vstr ("2001" ++ ":" ++ "db8" ++ ":" ++ "1:8080")) =
        some (arr', rm') ∧ rm'.Value = "2001" ∧ rm'.Port = "db8" :=
  c9_multi_colon_truncation "2001" "db8" "1:8080" "Connection accepted" [] remoteZero
    (by decide) (by decide)
